import Mathlib

/-!
Shallow embedding of the Kai MB Mechanic booking application (src/app.py):
the work-schedule constants, slot generation, the availability filter with
its lead-time rule, and the SQLite-backed booking store (insert, fetch,
status update, slot-taken check), modelled as pure functions over an
explicit store state.  Dates are represented by their Python ordinal
(`date.toordinal()`) together with their ISO rendering (`date.isoformat()`),
and moments in time by absolute minutes (ordinal * 1440 + minute of day).
-/

/-- Work-schedule constant `WORK_DAYS = {0, 1, 2, 3, 4, 5}` (Mon-Sat),
in Python weekday numbering (Monday = 0). -/
def WORK_DAYS : List Nat := [0, 1, 2, 3, 4, 5]

/-- Schedule constant `DAY_START = time(9, 0)`, as minutes after midnight. -/
def DAY_START : Nat := 9 * 60

/-- Schedule constant `DAY_END = time(18, 0)`, as minutes after midnight. -/
def DAY_END : Nat := 18 * 60

/-- Schedule constant `SLOT_MINUTES = 60`. -/
def SLOT_MINUTES : Nat := 60

/-- Booking-limit constant `MIN_LEAD_TIME_MINUTES = 60`. -/
def MIN_LEAD_TIME_MINUTES : Nat := 60

/-- A Python `datetime.date`, represented by its proleptic-Gregorian ordinal
(`date.toordinal()`; ordinal 1 is 0001-01-01, a Monday) together with its
ISO `YYYY-MM-DD` rendering (`date.isoformat()`), which the app uses as the
stored `booking_date` key. -/
structure PyDate where
  ord : Nat
  iso : String

/-- Python `date.weekday()`: Monday is 0; ordinal 1 is a Monday. -/
def weekday (d : PyDate) : Nat := (d.ord + 6) % 7

/-- Two-digit zero-padded decimal rendering. -/
def pad2 (n : Nat) : String := if n < 10 then "0" ++ toString n else toString n

/-- Renders an absolute time in minutes as the `"HH:MM"` label produced by
`dt.time().strftime("%H:%M")` on the corresponding `datetime`. -/
def fmtHM (dt : Nat) : String := pad2 (dt % 1440 / 60) ++ ":" ++ pad2 (dt % 1440 % 60)

/-- Loop of `generate_slots`: starting from absolute minute `dt`, emit
`fmtHM dt` and advance by `slot` while `dt + slot <= endDt`.  The source runs
this with `slot = SLOT_MINUTES = 60`; the `0 < slot` guard makes the
recursion well-founded in Lean (the Python `while` likewise only terminates
for a positive step). -/
def genLoop (dt endDt slot : Nat) : List String :=
  if _h : 0 < slot ∧ dt + slot ≤ endDt then
    fmtHM dt :: genLoop (dt + slot) endDt slot
  else []
termination_by endDt - dt
decreasing_by omega

/-- Function `generate_slots(for_day)`: the empty list when the weekday is
outside `WORK_DAYS`, otherwise labels every `SLOT_MINUTES` from `DAY_START`
while the slot end stays within `DAY_END`. -/
def generate_slots (for_day : PyDate) : List String :=
  if weekday for_day ∉ WORK_DAYS then []
  else genLoop (for_day.ord * 1440 + DAY_START) (for_day.ord * 1440 + DAY_END) SLOT_MINUTES

/-- Digit accumulator for `pyInt`: after a first digit, further digits may be
separated by single underscores (Python numeric-literal style accepted by
`int`). -/
def pyDigitsAux (acc : Nat) : List Char → Option Nat
  | [] => some acc
  | '_' :: c :: cs => if c.isDigit then pyDigitsAux (acc * 10 + (c.toNat - 48)) cs else none
  | c :: cs => if c.isDigit then pyDigitsAux (acc * 10 + (c.toNat - 48)) cs else none

/-- A non-empty digit string (single underscore separators allowed between
digits), as accepted by Python `int`. -/
def pyDigits : List Char → Option Nat
  | c :: cs => if c.isDigit then pyDigitsAux (c.toNat - 48) cs else none
  | [] => none

/-- Python `str.strip()` on a character list: whitespace removed from both
ends. -/
def trimChars (cs : List Char) : List Char :=
  ((cs.dropWhile Char.isWhitespace).reverse.dropWhile Char.isWhitespace).reverse

/-- A model of Python `int(s)` on a `str`: optional surrounding whitespace,
an optional sign, then digits; `none` models `ValueError`. -/
def pyInt (cs : List Char) : Option Int :=
  match trimChars cs with
  | '+' :: rest => (pyDigits rest).map (fun n => (n : Int))
  | '-' :: rest => (pyDigits rest).map (fun n => -(n : Int))
  | rest => (pyDigits rest).map (fun n => (n : Int))

/-- Python `s.split(sep)` for a one-character separator, on character lists:
`"a:b"` gives two parts, a string with no separator gives one part, and
empty parts are kept. -/
def splitOnChar (sep : Char) : List Char → List (List Char)
  | [] => [[]]
  | c :: rest =>
    if c = sep then [] :: splitOnChar sep rest
    else
      match splitOnChar sep rest with
      | [] => [[c]]
      | p :: ps => (c :: p) :: ps

/-- The fallible part of `lead_time_ok`: `hh, mm = chosen_time_str.split(":")`
followed by `time(int(hh), int(mm))`; `none` models any exception caught by
the bare `except` (wrong number of `:`-separated parts, a non-integer part,
or an hour/minute outside `time`'s range). -/
def parseHM (s : String) : Option (Nat × Nat) :=
  match splitOnChar ':' s.toList with
  | [a, b] =>
    match pyInt a, pyInt b with
    | some h, some m =>
      if 0 ≤ h ∧ h ≤ 23 ∧ 0 ≤ m ∧ m ≤ 59 then some (h.toNat, m.toNat) else none
    | _, _ => none
  | _ => none

/-- Function `lead_time_ok(chosen_day, chosen_time_str)`, with the value of
`datetime.now()` passed explicitly as absolute minutes: a label the `try`
block fails on is treated as OK (`return True` in the `except` arm);
otherwise the chosen datetime must be at least `MIN_LEAD_TIME_MINUTES`
past `now`. -/
def lead_time_ok (chosen_day : PyDate) (chosen_time_str : String) (now : Nat) : Bool :=
  match parseHM chosen_time_str with
  | none => true
  | some hm =>
    decide (chosen_day.ord * 1440 + hm.1 * 60 + hm.2 ≥ now + MIN_LEAD_TIME_MINUTES)

/-- The `Booking` dataclass of the source, field for field; `status` carries
the dataclass default `"new"`. -/
structure Booking where
  created_at : String
  customer_name : String
  phone : String
  suburb : String
  address : String
  bike_type : String
  service_name : String
  service_price : Nat
  addons : String
  addons_price : Nat
  travel_zone : String
  travel_fee : Nat
  booking_date : String
  booking_time : String
  notes : String
  status : String := "new"
deriving DecidableEq

/-- One row of the `bookings` table: the auto-assigned `id` plus the
inserted fields. -/
structure Row where
  id : Nat
  b : Booking
deriving DecidableEq

/-- The SQLite `bookings` table: its rows in insertion order plus the next
`AUTOINCREMENT` id. -/
structure Store where
  rows : List Row
  next_id : Nat
deriving DecidableEq

/-- Function `insert_booking(conn, b)`: appends a row with a fresh id,
persisting every field of `b` - including `b.status` - verbatim. -/
def insert_booking (s : Store) (b : Booking) : Store :=
  { rows := s.rows ++ [{ id := s.next_id, b := b }], next_id := s.next_id + 1 }

/-- Function `slot_taken(conn, d, t)`: whether `COUNT(*) > 0` over rows with
the given `booking_date` and `booking_time` and `status != 'cancelled'`. -/
def slot_taken (s : Store) (d t : String) : Bool :=
  s.rows.any (fun r =>
    r.b.booking_date == d && r.b.booking_time == t && r.b.status != "cancelled")

/-- Function `update_status(conn, booking_id, new_status)`:
`UPDATE bookings SET status=? WHERE id=?`. -/
def update_status (s : Store) (booking_id : Nat) (new_status : String) : Store :=
  { s with
    rows := s.rows.map (fun r =>
      if r.id = booking_id then { r with b := { r.b with status := new_status } } else r) }

/-- Bytewise string comparison as SQLite's default BLOB/TEXT collation
performs it: lexicographic on the character sequence (for UTF-8, byte order
and codepoint order agree). -/
def strLt (a b : String) : Prop := List.Lex (· < ·) a.toList b.toList

instance : DecidableRel strLt := fun a b => by
  unfold strLt
  infer_instance

/-- SQL `ORDER BY booking_date DESC, booking_time DESC, id DESC` as a
"sorts no later than" relation on rows. -/
def rowLE (r1 r2 : Row) : Prop :=
  strLt r2.b.booking_date r1.b.booking_date ∨
    (r2.b.booking_date = r1.b.booking_date ∧
      (strLt r2.b.booking_time r1.b.booking_time ∨
        (r2.b.booking_time = r1.b.booking_time ∧ r2.id ≤ r1.id)))

instance : DecidableRel rowLE := fun r1 r2 => by
  unfold rowLE
  infer_instance

/-- Trichotomy for the bytewise string order. -/
theorem strLt_trichotomy (a b : String) : strLt a b ∨ a = b ∨ strLt b a := by
  rcases (inferInstanceAs
      (IsTrichotomous (List Char) (List.Lex ((· < ·) : Char → Char → Prop)))).trichotomous
    a.toList b.toList with h | h | h
  · exact Or.inl h
  · exact Or.inr (Or.inl (String.toList_inj.mp h))
  · exact Or.inr (Or.inr h)

/-- Transitivity for the bytewise string order. -/
theorem strLt_trans {a b c : String} (h1 : strLt a b) (h2 : strLt b c) : strLt a c :=
  IsTrans.trans (r := List.Lex ((· < ·) : Char → Char → Prop)) _ _ _ h1 h2

instance : IsTotal Row rowLE where
  total r1 r2 := by
    unfold rowLE
    rcases strLt_trichotomy r1.b.booking_date r2.b.booking_date with hd | hd | hd
    · exact Or.inr (Or.inl hd)
    · rcases strLt_trichotomy r1.b.booking_time r2.b.booking_time with ht | ht | ht
      · exact Or.inr (Or.inr ⟨hd, Or.inl ht⟩)
      · rcases Nat.le_total r2.id r1.id with hi | hi
        · exact Or.inl (Or.inr ⟨hd.symm, Or.inr ⟨ht.symm, hi⟩⟩)
        · exact Or.inr (Or.inr ⟨hd, Or.inr ⟨ht, hi⟩⟩)
      · exact Or.inl (Or.inr ⟨hd.symm, Or.inl ht⟩)
    · exact Or.inl (Or.inl hd)

instance : IsTrans Row rowLE where
  trans r1 r2 r3 h12 h23 := by
    unfold rowLE at h12 h23 ⊢
    rcases h12 with h12 | ⟨hd12, h12⟩
    · rcases h23 with h23 | ⟨hd23, _⟩
      · exact Or.inl (strLt_trans h23 h12)
      · exact Or.inl (by rw [hd23]; exact h12)
    · rcases h23 with h23 | ⟨hd23, h23⟩
      · exact Or.inl (by rw [← hd12]; exact h23)
      · refine Or.inr ⟨hd23.trans hd12, ?_⟩
        rcases h12 with h12 | ⟨ht12, hi12⟩
        · rcases h23 with h23 | ⟨ht23, _⟩
          · exact Or.inl (strLt_trans h23 h12)
          · exact Or.inl (by rw [ht23]; exact h12)
        · rcases h23 with h23 | ⟨ht23, hi23⟩
          · exact Or.inl (by rw [← ht12]; exact h23)
          · exact Or.inr ⟨ht23.trans ht12, hi23.trans hi12⟩

/-- Function `fetch_bookings(conn)`: all rows, ordered by
`booking_date DESC, booking_time DESC, id DESC`. -/
def fetch_bookings (s : Store) : List Row :=
  List.insertionSort rowLE s.rows

/-- The derived `total` column the admin view adds to the listing:
`df_view["service_price"] + df_view["addons_price"] + df_view["travel_fee"]`. -/
def row_total (r : Row) : Nat :=
  r.b.service_price + r.b.addons_price + r.b.travel_fee

/-- The listed rows, each annotated with the derived total column. -/
def listed_with_total (s : Store) : List (Row × Nat) :=
  (fetch_bookings s).map (fun r => (r, row_total r))

/-- The availability filter of the booking page: from the generated `slots`
for `booking_day`, drop the taken ones, then - since
`MIN_LEAD_TIME_MINUTES > 0` - drop those failing the lead-time rule.
`now` is the value of `datetime.now()` in absolute minutes. -/
def free_slots (s : Store) (booking_day : PyDate) (slots : List String) (now : Nat) :
    List String :=
  let fs := slots.filter (fun t => !slot_taken s booking_day.iso t)
  if MIN_LEAD_TIME_MINUTES > 0 then fs.filter (fun t => lead_time_ok booking_day t now)
  else fs

/-- The four status values of the data model, as offered by the admin UI. -/
def ALLOWED_STATUSES : List String := ["new", "confirmed", "done", "cancelled"]

/-- A store operation: customer-side `create` or admin-side `updateStatus`. -/
inductive StoreOp where
  | create (b : Booking)
  | setStatus (booking_id : Nat) (new_status : String)

/-- Applies one store operation to the store. -/
def applyOp (s : Store) : StoreOp → Store
  | .create b => insert_booking s b
  | .setStatus i ns => update_status s i ns

/-- The discipline the UI obeys when calling the store: a created booking
carries an allowed status (the UI always passes `"new"`), and a status
update writes one of the four values offered by the admin select box. -/
def opStatusOK : StoreOp → Bool
  | .create b => decide (b.status ∈ ALLOWED_STATUSES)
  | .setStatus _ ns => decide (ns ∈ ALLOWED_STATUSES)

/-- Frame predicate for `update_status i ns`: a row not matching `i` is
untouched, and a matching row keeps every field except `status`, which
becomes `ns`. -/
def statusOnlyChanged (i : Nat) (ns : String) (r r1 : Row) : Prop :=
  (r.id ≠ i → r1 = r) ∧
  (r.id = i → r1.id = r.id ∧ r1.b.created_at = r.b.created_at ∧
    r1.b.customer_name = r.b.customer_name ∧ r1.b.phone = r.b.phone ∧
    r1.b.suburb = r.b.suburb ∧ r1.b.address = r.b.address ∧
    r1.b.bike_type = r.b.bike_type ∧ r1.b.service_name = r.b.service_name ∧
    r1.b.service_price = r.b.service_price ∧ r1.b.addons = r.b.addons ∧
    r1.b.addons_price = r.b.addons_price ∧ r1.b.travel_zone = r.b.travel_zone ∧
    r1.b.travel_fee = r.b.travel_fee ∧ r1.b.booking_date = r.b.booking_date ∧
    r1.b.booking_time = r.b.booking_time ∧ r1.b.notes = r.b.notes ∧
    r1.b.status = ns)

/-- A sample booking as the UI builds it (status `"new"`). -/
def bNew : Booking :=
  { created_at := "2024-01-05T10:00:00", customer_name := "Alex", phone := "0412345678",
    suburb := "Carlton", address := "", bike_type := "Road",
    service_name := "Full Service ($189)", service_price := 189, addons := "None",
    addons_price := 0, travel_zone := "Included area (no travel fee)", travel_fee := 0,
    booking_date := "2024-01-10", booking_time := "09:00", notes := "", status := "new" }

/-- The same booking with a caller-supplied non-default status. -/
def bConfirmed : Booking := { bNew with status := "confirmed" }

/-- A second sample booking on a later date. -/
def bLater : Booking :=
  { bNew with booking_date := "2024-02-01", booking_time := "10:00", addons_price := 35 }

/-- The empty store (fresh database). -/
def store0 : Store := { rows := [], next_id := 1 }

/-- A store holding one booking with id 1. -/
def store1 : Store := { rows := [{ id := 1, b := bNew }], next_id := 2 }

/-- A store holding two bookings, inserted oldest first. -/
def store2 : Store :=
  { rows := [{ id := 1, b := bNew }, { id := 2, b := bLater }], next_id := 3 }

/-- A Monday (ordinal 1 = 0001-01-01). -/
def dMon : PyDate := { ord := 1, iso := "0001-01-01" }

/-- A Tuesday (ordinal 2 = 0001-01-02). -/
def dTue : PyDate := { ord := 2, iso := "0001-01-02" }

/-- A Sunday (ordinal 7 = 0001-01-07). -/
def dSun : PyDate := { ord := 7, iso := "0001-01-07" }

/-! ## Theorems -/

/-- The `"HH:MM"` label of an absolute minute only depends on the minute of
the day. -/
theorem fmtHM_add_day (a x : Nat) : fmtHM (a * 1440 + x) = fmtHM x := by
  have h : (a * 1440 + x) % 1440 = x % 1440 := by omega
  simp [fmtHM, h]

/-- Closed form of the slot loop: one label every `slot` minutes from `dt`,
exactly `(endDt - dt) / slot` of them, so a final slot whose end would pass
`endDt` is dropped. -/
theorem genLoop_eq (endDt slot : Nat) (hs : 0 < slot) :
    ∀ dt, genLoop dt endDt slot =
      (List.range ((endDt - dt) / slot)).map (fun k => fmtHM (dt + slot * k)) := by
  have key : ∀ fuel dt, endDt - dt ≤ fuel →
      genLoop dt endDt slot =
        (List.range ((endDt - dt) / slot)).map (fun k => fmtHM (dt + slot * k)) := by
    intro fuel
    induction fuel with
    | zero =>
      intro dt hle
      rw [genLoop]
      rw [dif_neg (by omega)]
      have h2 : (endDt - dt) / slot = 0 := by
        have h3 : endDt - dt = 0 := by omega
        simp [h3]
      simp [h2]
    | succ n ih =>
      intro dt hle
      rw [genLoop]
      by_cases h : dt + slot ≤ endDt
      · rw [dif_pos ⟨hs, h⟩, ih (dt + slot) (by omega)]
        have hdiv : (endDt - dt) / slot = (endDt - (dt + slot)) / slot + 1 := by
          have h1 : endDt - dt = (endDt - (dt + slot)) + slot := by omega
          rw [h1, Nat.add_div_right _ hs]
        rw [hdiv, List.range_succ_eq_map, List.map_cons, List.map_map]
        have hhead : fmtHM dt = fmtHM (dt + slot * 0) := by
          rw [Nat.mul_zero, Nat.add_zero]
        have htail : ((fun k => fmtHM (dt + slot * k)) ∘ Nat.succ) =
            fun k => fmtHM (dt + slot + slot * k) := by
          funext k
          simp only [Function.comp_apply, Nat.succ_eq_add_one]
          congr 1
          rw [Nat.mul_succ]
          ring
        rw [hhead, htail]
      · rw [dif_neg (by omega)]
        have h2 : (endDt - dt) / slot = 0 := Nat.div_eq_of_lt (by omega)
        simp [h2]
  exact fun dt => key (endDt - dt) dt (Nat.le_refl _)

/-- C6: for every calendar date whose weekday is not in the configured
work-day set, the slot generator returns the empty sequence. -/
theorem generate_slots_nonworkday (d : PyDate) (hd : weekday d ∉ WORK_DAYS) :
    generate_slots d = [] := by
  simp [generate_slots, hd]

/-- C6 witness: ordinal 7 (0001-01-07) is a Sunday, so no slots. -/
theorem generate_slots_nonworkday_witness :
    weekday dSun ∉ WORK_DAYS ∧ generate_slots dSun = [] :=
  ⟨by decide, generate_slots_nonworkday dSun (by decide)⟩

/-- C7: for every date whose weekday is in the work-day set, the slot
generator returns exactly the nine hourly labels 09:00 through 17:00; and in
general the loop emits labels spaced exactly `slot` minutes apart starting
at `dt`, dropping any final slot whose end would exceed `endDt`
(`(endDt - dt) / slot` labels: a less-than-or-equal end-boundary check). -/
theorem generate_slots_workday (d : PyDate) (hd : weekday d ∈ WORK_DAYS) :
    generate_slots d =
      ["09:00", "10:00", "11:00", "12:00", "13:00", "14:00", "15:00", "16:00", "17:00"] ∧
    (∀ dt endDt slot : Nat, 0 < slot →
      genLoop dt endDt slot =
        (List.range ((endDt - dt) / slot)).map (fun k => fmtHM (dt + slot * k))) := by
  constructor
  · rw [generate_slots, if_neg (by simpa using hd)]
    rw [genLoop_eq _ _ (by decide)]
    have h9 : (d.ord * 1440 + DAY_END - (d.ord * 1440 + DAY_START)) / SLOT_MINUTES = 9 := by
      simp only [DAY_END, DAY_START, SLOT_MINUTES]
      omega
    rw [h9]
    have hf : ∀ k : Nat,
        fmtHM (d.ord * 1440 + DAY_START + SLOT_MINUTES * k) = fmtHM (540 + 60 * k) := by
      intro k
      have hx : d.ord * 1440 + DAY_START + SLOT_MINUTES * k = d.ord * 1440 + (540 + 60 * k) := by
        simp only [DAY_START, SLOT_MINUTES]
        ring
      rw [hx, fmtHM_add_day]
    simp only [hf]
    decide
  · exact fun dt endDt slot hs => genLoop_eq endDt slot hs dt

/-- C7 witness: a Monday gets the nine hourly labels, and the loop closed
form evaluated at a boundary that is not an exact multiple (`endDt = 10`,
`slot = 3`) drops the final partial slot. -/
theorem generate_slots_workday_witness :
    generate_slots dMon =
      ["09:00", "10:00", "11:00", "12:00", "13:00", "14:00", "15:00", "16:00", "17:00"] ∧
    genLoop 0 10 3 = ["00:00", "00:03", "00:06"] :=
  ⟨(generate_slots_workday dMon (by decide)).1,
    ((generate_slots_workday dMon (by decide)).2 0 10 3 (by decide)).trans (by decide)⟩

/-- C5: a label the try-block cannot parse makes `lead_time_ok` return
`True` (the bare `except` arm; being a total Lean function it cannot raise),
for every date and every current moment. -/
theorem lead_time_ok_malformed (d : PyDate) (t : String) (now : Nat)
    (hp : parseHM t = none) : lead_time_ok d t now = true := by
  simp [lead_time_ok, hp]

/-- C5 witness: `"noon"` does not parse, and is treated as lead-time-OK. -/
theorem lead_time_ok_malformed_witness :
    parseHM "noon" = none ∧ lead_time_ok dMon "noon" 0 = true :=
  ⟨by decide, lead_time_ok_malformed dMon "noon" 0 (by decide)⟩

/-- The availability filter with the positive lead-time branch taken
(`MIN_LEAD_TIME_MINUTES = 60 > 0`). -/
theorem free_slots_eq (s : Store) (d : PyDate) (slots : List String) (now : Nat) :
    free_slots s d slots now =
      (slots.filter (fun t => !slot_taken s d.iso t)).filter
        (fun t => lead_time_ok d t now) := rfl

/-- C3: the availability filter never returns a slot that `slot_taken`
reports as taken for the same date. -/
theorem free_slots_not_taken (s : Store) (d : PyDate) (slots : List String) (now : Nat)
    (t : String) (ht : t ∈ free_slots s d slots now) :
    slot_taken s d.iso t = false := by
  rw [free_slots_eq, List.mem_filter, List.mem_filter] at ht
  rcases ht with ⟨⟨_, h2⟩, _⟩
  simpa using h2

/-- C3 witness: with an empty store, a generated slot passes the filter and
is indeed not taken. -/
theorem free_slots_not_taken_witness :
    slot_taken store0 dTue.iso "16:00" = false :=
  free_slots_not_taken store0 dTue ["15:00", "16:00"] 3750 "16:00" (by decide)

/-- C4: for a well-formed `"HH:MM"` label, membership in the availability
filter output is exactly: offered, not taken, and starting at or after
`now + MIN_LEAD_TIME_MINUTES` - so no slot before the lead-time cutoff is
ever returned, and slots at or past it are kept unless booked. -/
theorem free_slots_lead_time (s : Store) (d : PyDate) (slots : List String) (now : Nat)
    (t : String) (h m : Nat) (hp : parseHM t = some (h, m)) :
    t ∈ free_slots s d slots now ↔
      t ∈ slots ∧ slot_taken s d.iso t = false ∧
        d.ord * 1440 + h * 60 + m ≥ now + MIN_LEAD_TIME_MINUTES := by
  rw [free_slots_eq, List.mem_filter, List.mem_filter]
  have hl : lead_time_ok d t now =
      decide (d.ord * 1440 + h * 60 + m ≥ now + MIN_LEAD_TIME_MINUTES) := by
    simp [lead_time_ok, hp]
  constructor
  · rintro ⟨⟨h1, h2⟩, h3⟩
    rw [hl] at h3
    exact ⟨h1, by simpa using h2, of_decide_eq_true h3⟩
  · rintro ⟨h1, h2, h3⟩
    refine ⟨⟨h1, ?_⟩, ?_⟩
    · simp [h2]
    · rw [hl]
      exact decide_eq_true h3

/-- C4 witness: the spec's example with a 60-minute lead time and current
time 14:30 (absolute minute 3750 on ordinal-2 day): the 15:00 slot that day
is excluded, the 16:00 slot is included. -/
theorem free_slots_lead_time_witness :
    "16:00" ∈ free_slots store0 dTue ["15:00", "16:00"] 3750 ∧
    "15:00" ∉ free_slots store0 dTue ["15:00", "16:00"] 3750 := by
  constructor
  · exact (free_slots_lead_time store0 dTue ["15:00", "16:00"] 3750 "16:00" 16 0
      (by decide)).mpr ⟨by decide, by decide, by decide⟩
  · intro hmem
    have hc := (free_slots_lead_time store0 dTue ["15:00", "16:00"] 3750 "15:00" 15 0
      (by decide)).mp hmem
    exact absurd hc.2.2 (by decide)

/-- C1 counterexample: the store does not force status to `"new"`: a booking
supplied with status `"confirmed"` is persisted as `"confirmed"`. -/
theorem insert_booking_keeps_supplied_status :
    (insert_booking store0 bConfirmed).rows.map (fun r => r.b.status) = ["confirmed"] ∧
    ¬ ∀ r ∈ (insert_booking store0 bConfirmed).rows, r.b.status = "new" := by
  constructor
  · decide
  · decide

/-- C1 amended: `insert_booking` persists the caller-supplied status
verbatim; when the caller passes `"new"` (the dataclass default, and what
the booking form always does), the created record shows up in the listing
with status `"new"`. -/
theorem insert_booking_new_status (s : Store) (b : Booking) (hb : b.status = "new") :
    ∃ r ∈ fetch_bookings (insert_booking s b),
      r.id = s.next_id ∧ r.b = b ∧ r.b.status = "new" := by
  refine ⟨{ id := s.next_id, b := b }, ?_, rfl, rfl, hb⟩
  unfold fetch_bookings
  exact (List.perm_insertionSort rowLE (insert_booking s b).rows).mem_iff.mpr
    (by simp [insert_booking])

/-- C1 witness: creating the sample `"new"` booking on an empty store and
listing yields it with status `"new"`. -/
theorem insert_booking_new_status_witness :
    ∃ r ∈ fetch_bookings (insert_booking store0 bNew),
      r.id = store0.next_id ∧ r.b = bNew ∧ r.b.status = "new" :=
  insert_booking_new_status store0 bNew rfl

/-- C2 counterexample: `update_status` validates nothing: it happily writes
a status outside the four allowed values. -/
theorem update_status_accepts_any_string :
    (update_status store1 1 "garbage").rows.map (fun r => r.b.status) = ["garbage"] ∧
    "garbage" ∉ ALLOWED_STATUSES := by
  constructor
  · decide
  · decide

/-- C2 amended: the store itself never restricts status values
(`insert_booking` and `update_status` write exactly the supplied string);
provided every operation argument carries one of the four allowed values -
which the customer form (always `"new"`) and the admin select box guarantee -
every persisted status stays in the allowed set. -/
theorem store_status_invariant (ops : List StoreOp) (s : Store)
    (hs : ∀ r ∈ s.rows, r.b.status ∈ ALLOWED_STATUSES)
    (hops : ∀ op ∈ ops, opStatusOK op = true) :
    ∀ r ∈ (ops.foldl applyOp s).rows, r.b.status ∈ ALLOWED_STATUSES := by
  induction ops generalizing s with
  | nil => simpa using hs
  | cons op rest ih =>
    rw [List.foldl_cons]
    apply ih
    · intro r hr
      cases op with
      | create b =>
        simp only [applyOp, insert_booking] at hr
        rcases List.mem_append.mp hr with h | h
        · exact hs r h
        · have hb : opStatusOK (StoreOp.create b) = true :=
            hops _ (List.mem_cons_self _ _)
          simp only [opStatusOK] at hb
          have hr2 : r = { id := s.next_id, b := b } := by simpa using h
          subst hr2
          exact of_decide_eq_true hb
      | setStatus i ns =>
        simp only [applyOp, update_status] at hr
        rcases List.mem_map.mp hr with ⟨r0, hr0, hmap⟩
        by_cases hid : r0.id = i
        · rw [if_pos hid] at hmap
          have hb : opStatusOK (StoreOp.setStatus i ns) = true :=
            hops _ (List.mem_cons_self _ _)
          simp only [opStatusOK] at hb
          rw [← hmap]
          exact of_decide_eq_true hb
        · rw [if_neg hid] at hmap
          rw [← hmap]
          exact hs r0 hr0
    · intro op2 hop2
      exact hops op2 (List.mem_cons_of_mem _ hop2)

/-- C2 witness: after a create followed by a status update, both with
allowed values, the stored row's status is in the allowed set. -/
theorem store_status_invariant_witness :
    ({ id := 1, b := { bNew with status := "done" } } : Row).b.status ∈ ALLOWED_STATUSES :=
  store_status_invariant [StoreOp.create bNew, StoreOp.setStatus 1 "done"] store0
    (by decide) (by decide) { id := 1, b := { bNew with status := "done" } } (by decide)

/-- C8: cancelling a booking frees its slot: after
`update_status(id, "cancelled")`, `slot_taken` on that booking's (date, time)
is false, provided every other non-cancelled holder of the pair is that
booking (i.e. no other non-cancelled booking has the same date and time). -/
theorem cancel_frees_slot (s : Store) (i : Nat) (d t : String) (r0 : Row)
    (_hr0 : r0 ∈ s.rows) (_hid : r0.id = i) (_hd : r0.b.booking_date = d)
    (_ht : r0.b.booking_time = t)
    (hothers : ∀ r ∈ s.rows, r.id ≠ i → r.b.booking_date = d →
      r.b.booking_time = t → r.b.status = "cancelled") :
    slot_taken (update_status s i "cancelled") d t = false := by
  simp only [slot_taken, update_status]
  rw [List.any_map, List.any_eq_false]
  intro r hr
  by_cases hri : r.id = i
  · simp [Function.comp, hri]
  · simp only [Function.comp_apply, if_neg hri]
    intro hcontra
    simp only [Bool.and_eq_true, bne_iff_ne, beq_iff_eq, ne_eq] at hcontra
    obtain ⟨⟨hbd, hbt⟩, hst⟩ := hcontra
    exact hst (hothers r hr hri hbd hbt)

/-- C8 witness: cancelling the only booking at (2024-01-10, 09:00) makes
that slot free again. -/
theorem cancel_frees_slot_witness :
    slot_taken (update_status store1 1 "cancelled") "2024-01-10" "09:00" = false :=
  cancel_frees_slot store1 1 "2024-01-10" "09:00" { id := 1, b := bNew }
    (by decide) rfl rfl rfl (by decide)

/-- C9: the listing returns all persisted rows (a permutation of the store),
ordered descending by booking date then booking time, and annotates each
returned row with a derived total equal to
`service_price + addons_price + travel_fee` (computed in the view; the
`Booking` record stores no total field). -/
theorem fetch_bookings_ordered_total (s : Store) :
    (fetch_bookings s).Perm s.rows ∧
    List.Pairwise (fun r1 r2 =>
      strLt r2.b.booking_date r1.b.booking_date ∨
        (r2.b.booking_date = r1.b.booking_date ∧
          (strLt r2.b.booking_time r1.b.booking_time ∨
            r2.b.booking_time = r1.b.booking_time))) (fetch_bookings s) ∧
    ∀ p ∈ listed_with_total s, p.1 ∈ s.rows ∧
      p.2 = p.1.b.service_price + p.1.b.addons_price + p.1.b.travel_fee := by
  refine ⟨List.perm_insertionSort rowLE s.rows, ?_, ?_⟩
  · have hp := List.sorted_insertionSort rowLE s.rows
    refine List.Pairwise.imp ?_ hp
    intro a b hab
    simp only [rowLE] at hab
    rcases hab with hlt | ⟨hde, hrest⟩
    · exact Or.inl hlt
    · refine Or.inr ⟨hde, ?_⟩
      rcases hrest with hlt | ⟨hte, _⟩
      · exact Or.inl hlt
      · exact Or.inr hte
  · intro p hp
    rcases List.mem_map.mp hp with ⟨r, hr, hpr⟩
    subst hpr
    exact ⟨(List.perm_insertionSort rowLE s.rows).subset hr, rfl⟩

/-- C9 witness: on the two-row sample store the listing is a permutation of
the rows and the annotated totals are the sums of the three price fields. -/
theorem fetch_bookings_ordered_total_witness :
    (fetch_bookings store2).Perm store2.rows ∧
    ∀ p ∈ listed_with_total store2, p.1 ∈ store2.rows ∧
      p.2 = p.1.b.service_price + p.1.b.addons_price + p.1.b.travel_fee :=
  ⟨(fetch_bookings_ordered_total store2).1, (fetch_bookings_ordered_total store2).2.2⟩

/-- C10: `update_status i ns` changes at most the status field of rows whose
id is `i` (pointwise: every non-matching row is untouched, and a matching
row keeps every other field); if no row has id `i` the store is unchanged
(a no-op, not an error). -/
theorem update_status_frame (s : Store) (i : Nat) (ns : String) :
    (update_status s i ns).next_id = s.next_id ∧
    List.Forall₂ (statusOnlyChanged i ns) s.rows (update_status s i ns).rows ∧
    ((∀ r ∈ s.rows, r.id ≠ i) → update_status s i ns = s) := by
  refine ⟨rfl, ?_, ?_⟩
  · show List.Forall₂ (statusOnlyChanged i ns) s.rows (s.rows.map _)
    rw [List.forall₂_map_right_iff, List.forall₂_same]
    intro r _
    unfold statusOnlyChanged
    constructor
    · intro hne
      simp [hne]
    · intro heq
      simp [heq]
  · intro hno
    cases s with
    | mk rows nid =>
      simp only [update_status]
      have hmap : (rows.map (fun r =>
          if r.id = i then { r with b := { r.b with status := ns } } else r)) = rows := by
        conv_rhs => rw [← List.map_id rows]
        apply List.map_congr_left
        intro r hr
        simp [hno r hr]
      simp [hmap]

/-- C10 witness: updating id 1 on the two-row store satisfies the frame
relation, and updating an id that is absent (5) leaves the store equal. -/
theorem update_status_frame_witness :
    List.Forall₂ (statusOnlyChanged 1 "done") store2.rows
      (update_status store2 1 "done").rows ∧
    update_status store2 5 "done" = store2 :=
  ⟨(update_status_frame store2 1 "done").2.1,
    (update_status_frame store2 5 "done").2.2 (by decide)⟩
